import Mathlib

/-!
Verification of the VocabPop vocabulary notifier (src/main.rs).

The development shallowly embeds the program:
* `Entry`, `parse_vocab_file`, `load_vocab` — the data model and parser
  (main.rs lines 10-16, 38-61, 63-75), modelled at the character-list level
  so that Rust's `str::trim` (Unicode White_Space) and `str::split('\t')`
  are reproduced exactly.
* `formatBody` — the title/body rendering block that main.rs duplicates
  verbatim at lines 155-159, 169-173 and 178-182.
* `Config`/`schedStep` — the scheduler loop of `main` (lines 151-196) as a
  small-step state machine; the mpsc signal channel is its queued `pending`
  count, the AtomicBool is `running`, and one `sleeping` step is one
  iteration of the inner 1-second poll loop.  External concurrent activity
  (tray `send`, ctrl-c) is interleaved via `Act`/`schedRun`.
* `mainModel` — the dispatch in `main` after vocabulary loading: empty-vocab
  early return (lines 102-105), force-once branch (153-162), or the loop.

The cursor is a Rust `usize` advanced with `wrapping_add(1)`; it is embedded
as a `Nat` reduced modulo `usizeSize = 2 ^ 64` (the program's targets are
64-bit).
-/

/-- Characters with the Unicode White_Space property, the set Rust's
`char::is_whitespace` (and hence `str::trim`) uses. -/
def isRustWhitespace (c : Char) : Bool :=
  let n := c.toNat
  n = 0x9 || n = 0xA || n = 0xB || n = 0xC || n = 0xD || n = 0x20 ||
  n = 0x85 || n = 0xA0 || n = 0x1680 || (0x2000 <= n && n <= 0x200A) ||
  n = 0x2028 || n = 0x2029 || n = 0x202F || n = 0x205F || n = 0x3000

/-- Rust `str::trim` on the character list: drop White_Space from both ends. -/
def trimChars (l : List Char) : List Char :=
  (l.dropWhile isRustWhitespace).rdropWhile isRustWhitespace

/-- Rust `str::trim` on strings. -/
def rustTrim (s : String) : String :=
  String.mk (trimChars s.data)

/-- Rust `str::split(sep)` on a character list: always at least one field,
with empty fields kept (so `"a\t"` has fields `["a", ""]`). -/
def splitChar (sep : Char) : List Char → List (List Char)
  | [] => [[]]
  | c :: cs =>
    match splitChar sep cs with
    | [] => [[]]
    | f :: fs => if c = sep then [] :: f :: fs else (c :: f) :: fs

/-- One vocabulary item (main.rs lines 10-16). -/
structure Entry where
  word : String
  reading : Option String
  meaning : Option String
  codes : Option String
deriving DecidableEq

/-- An optional field of a parsed line: trim it and null it out when blank
(main.rs lines 55-57, `.map(|s| s.trim().to_string()).filter(|s| !s.is_empty())`). -/
def optField (o : Option (List Char)) : Option String :=
  match o with
  | none => none
  | some f => if trimChars f = [] then none else some (String.mk (trimChars f))

/-- Build an `Entry` from the tab-split parts of a (trimmed) line
(main.rs lines 50-58).  `parts.get(0).map(|s| s.trim()).unwrap_or("")` is the
trimmed first part or empty; an empty word skips the line. -/
def entryFromParts (parts : List (List Char)) : Option Entry :=
  let word := trimChars ((parts.get? 0).getD [])
  if word = [] then none
  else some ⟨String.mk word, optField (parts.get? 1), optField (parts.get? 2),
    optField (parts.get? 3)⟩

/-- Parse one line (main.rs lines 44-58): trim; skip blank lines and lines
starting with a hash; split on a single tab; build the entry. -/
def parseLineChars (line : List Char) : Option Entry :=
  let l := trimChars line
  if l = [] then none
  else if l.head? = some '#' then none
  else entryFromParts (splitChar '\t' l)

/-- main.rs `parse_vocab_file` (lines 38-61) given the result of
`fs::read_to_string`: `none` (a read error) yields no entries, otherwise
each line is parsed and failures are skipped. -/
def parse_vocab_file (content : Option String) : List Entry :=
  match content with
  | none => []
  | some text => (splitChar '\n' text.data).filterMap parseLineChars

/-- main.rs `load_vocab` (lines 63-75): the entries of each readable file in
directory order, concatenated. -/
def load_vocab (files : List (Option String)) : List Entry :=
  (files.map parse_vocab_file).flatten

/-- Notification title: the entry's word (main.rs line 155). -/
def formatTitle (e : Entry) : String :=
  e.word

/-- Notification body, exactly the block main.rs builds at lines 156-159
(duplicated at 169-173 and 178-182): start empty; push `reading` if present;
push `" — "` then `meaning` if `meaning` is present, the separator only when
the body is non-empty so far; push `" (" + codes + ")"` if `codes` is present
and non-empty. -/
def formatBody (e : Entry) : String :=
  let b1 : String :=
    match e.reading with
    | some r => r
    | none => ""
  let b2 : String :=
    match e.meaning with
    | some m => (if b1 = "" then b1 else b1 ++ " — ") ++ m
    | none => b1
  match e.codes with
  | some c => if c = "" then b2 else b2 ++ " (" ++ c ++ ")"
  | none => b2

/-- Spec-side rendering (spec section 4.1), for the refinement comparison: the body as the spec words it —
the concatenation, in fixed order, of the `reading` fragment, the `meaning`
fragment (an em-dash separator only when reading produced content), and the
parenthesised `codes` fragment (only when codes is present and non-empty).
Used to compare the spec's description of formatting with `formatBody`. -/
def bodySpecC2 (e : Entry) : String :=
  let rp : String :=
    match e.reading with
    | some r => r
    | none => ""
  let mp : String :=
    match e.meaning with
    | some m => if rp = "" then m else " — " ++ m
    | none => ""
  let cp : String :=
    match e.codes with
    | some c => if c = "" then "" else " (" ++ c ++ ")"
    | none => ""
  rp ++ mp ++ cp

/-- Width of the cursor: `usize` on the program's 64-bit targets. -/
def usizeSize : Nat := 2 ^ 64

/-- `idx.wrapping_add(1)` (main.rs lines 175, 184). -/
def nextIdx (idx : Nat) : Nat := (idx + 1) % usizeSize

/-- The `Entry` value a vector index panic would produce is irrelevant; this
placeholder is only returned for an out-of-bounds access, shown unreachable
in the indexing-safety theorem. -/
def defaultEntry : Entry := ⟨"", none, none, none⟩

/-- `&entries[idx % entries.len()]`, the selection expression main.rs uses at
lines 154, 168 and 177. -/
def entrySel (entries : List Entry) (idx : Nat) : Entry :=
  entries.getD (idx % entries.length) defaultEntry

/-- The `(title, body)` payload handed to `show_notification`. -/
def renderEntry (e : Entry) : String × String :=
  (formatTitle e, formatBody e)

/-- Where the scheduler's control is between atomic steps: at the top of the
`while running` loop (main.rs line 165), inside the inner per-second poll
loop (lines 186-193), or past the loop (line 196). -/
inductive Phase where
  | loopTop
  | sleeping
  | done
deriving DecidableEq

/-- The scheduler's state.  `entries` and `interval` (in seconds, i.e.
`args.interval * 60`) are fixed; `idx` is the cursor; `slept` the inner-loop
second counter; `pending` the number of queued unit messages in the mpsc
channel; `running` the AtomicBool.  Observables: `shows` records each
`show_notification(title, body)` call in order, `earlyShows` counts the shows
taken in the `rx.try_recv()` branch (line 167), and `ticks` counts the
1-second sleeps performed. -/
structure Config where
  entries : List Entry
  interval : Nat
  idx : Nat
  phase : Phase
  slept : Nat
  pending : Nat
  running : Bool
  shows : List (String × String)
  earlyShows : Nat
  ticks : Nat
deriving DecidableEq

/-- One atomic scheduler step (main.rs lines 165-195).  At `loopTop`:
check `running` (exit when false); then `rx.try_recv()` — a queued signal is
consumed and its entry shown immediately (lines 167-175, cursor advanced);
otherwise the normal show happens and the inner sleep loop starts with
`slept = 0` (lines 176-185).  At `sleeping`: one iteration of
`while slept < interval && running` — a queued signal is consumed and breaks
the sleep (lines 188-190), otherwise sleep one second (lines 191-192); when
the guard fails, fall back to the outer loop top. -/
def schedStep (c : Config) : Config :=
  match c.phase with
  | .done => c
  | .loopTop =>
    if !c.running then { c with phase := .done }
    else if c.pending > 0 then
      { c with pending := c.pending - 1,
               shows := c.shows ++ [renderEntry (entrySel c.entries c.idx)],
               earlyShows := c.earlyShows + 1,
               idx := nextIdx c.idx }
    else
      { c with shows := c.shows ++ [renderEntry (entrySel c.entries c.idx)],
               idx := nextIdx c.idx,
               slept := 0,
               phase := .sleeping }
  | .sleeping =>
    if c.slept < c.interval && c.running then
      if c.pending > 0 then
        { c with pending := c.pending - 1, phase := .loopTop }
      else
        { c with slept := c.slept + 1, ticks := c.ticks + 1 }
    else
      { c with phase := .loopTop }

/-- `n` consecutive scheduler steps with no interleaved external activity. -/
def iterSched : Nat → Config → Config
  | 0, c => c
  | n + 1, c => iterSched n (schedStep c)

/-- An atomic action of the whole system: a scheduler step, a tray-thread
`tx.send(())` (enqueue one unit message, main.rs line 120's channel), or the
ctrl-c handler's `running.store(false)` (lines 114-117). -/
inductive Act where
  | sched
  | send
  | cancel
deriving DecidableEq

/-- Effect of one atomic action on the state. -/
def envStep (c : Config) : Act → Config
  | .sched => schedStep c
  | .send => { c with pending := c.pending + 1 }
  | .cancel => { c with running := false }

/-- Run an arbitrary interleaving of scheduler steps and external actions. -/
def schedRun (c : Config) : List Act → Config
  | [] => c
  | a :: acts => schedRun (envStep c a) acts

/-- The scheduler state at the top of the first loop iteration (main.rs
line 165): cursor `idx0` (0 in the program), nothing pending, running. -/
def initConfig (entries : List Entry) (interval idx0 : Nat) : Config :=
  ⟨entries, interval, idx0, .loopTop, 0, 0, true, [], 0, 0⟩

/-- Observable outcome of `main` after `load_vocab` and the optional
shuffle: the empty-vocabulary report-and-return (main.rs lines 102-105), the
force-once single notification (lines 153-162), or the scheduler loop. -/
inductive MainResult where
  | emptyVocab
  | forced (payload : String × String)
  | loop (c : Config)
deriving DecidableEq

/-- Dispatch of `main` (main.rs lines 101-165) on the already-loaded,
already-shuffled entry list: report and return when empty; with `--force`,
render the entry at `0 % entries.len()` once and exit; otherwise enter the
loop with cursor 0 and `interval * 60` seconds between shows. -/
def mainModel (force : Bool) (intervalMinutes : Nat) (entries : List Entry) :
    MainResult :=
  if entries.isEmpty then .emptyVocab
  else if force then .forced (renderEntry (entrySel entries 0))
  else .loop (initConfig entries (intervalMinutes * 60) 0)

/-- The first `n` cursor-order payloads starting from cursor `idx0`:
entry `k` is selected at cursor `(idx0 + k) mod 2 ^ 64`. -/
def showsSpec (entries : List Entry) (idx0 n : Nat) : List (String × String) :=
  (List.range n).map (fun k => renderEntry (entrySel entries ((idx0 + k) % usizeSize)))

/-- The cursor after `n` show-and-advance operations from `idx0`. -/
def cursorAfter (idx0 : Nat) : Nat → Nat
  | 0 => idx0
  | n + 1 => cursorAfter (nextIdx idx0) n

/-- The entries selected by `n` consecutive shows starting at cursor `idx0`. -/
def showsFrom (entries : List Entry) (idx0 : Nat) : Nat → List Entry
  | 0 => []
  | n + 1 => entrySel entries idx0 :: showsFrom entries (nextIdx idx0) n

lemma string_append_assoc (a b c : String) : (a ++ b) ++ c = a ++ (b ++ c) := by
  rcases a with ⟨la⟩; rcases b with ⟨lb⟩; rcases c with ⟨lc⟩
  exact congrArg String.mk (List.append_assoc la lb lc)

/-- Claim C2: for every Entry the rendered title is `word` and the rendered
body is the fixed-order concatenation the spec describes (`bodySpecC2`):
`reading` if present, then an em-dash separator plus `meaning` when reading
produced content and meaning is present (just `meaning` when reading gave
nothing), then the parenthesised `codes` when present and non-empty.  In
particular an entry with only `word` renders an empty body, and an entry
with `meaning` and (non-empty, as the parser guarantees) `codes` but no
`reading` renders `meaning ++ " (" ++ codes ++ ")"` with no leading em-dash. -/
theorem c2_entry_formatting :
    (∀ e : Entry, formatTitle e = e.word ∧ formatBody e = bodySpecC2 e) ∧
    (∀ w, formatBody ⟨w, none, none, none⟩ = "") ∧
    (∀ w m c, c ≠ "" →
      formatBody ⟨w, none, some m, some c⟩ = m ++ " (" ++ c ++ ")") := by
  have hmain : ∀ e : Entry, formatBody e = bodySpecC2 e := by
    rintro ⟨w, r, m, c⟩
    cases r with
    | none =>
      cases m <;> cases c <;>
        simp [formatBody, bodySpecC2, string_append_assoc] <;>
        try (split_ifs <;> simp [String.append_empty, string_append_assoc])
    | some rv =>
      by_cases hr : rv = "" <;>
        cases m <;> cases c <;>
          simp [formatBody, bodySpecC2, hr, string_append_assoc] <;>
          try (split_ifs <;> simp [String.append_empty, string_append_assoc])
  refine ⟨fun e => ⟨rfl, hmain e⟩, fun w => rfl, fun w m c hc => ?_⟩
  rw [hmain ⟨w, none, some m, some c⟩]
  simp [bodySpecC2, hc, string_append_assoc]

theorem c2_entry_formatting_witness :
    formatTitle ⟨"猫", some "neko", some "cat", some "N5"⟩ = "猫" ∧
    formatBody ⟨"日", none, none, none⟩ = "" ∧
    formatBody ⟨"犬", none, some "dog", some "N5"⟩ = "dog" ++ " (" ++ "N5" ++ ")" :=
  ⟨(c2_entry_formatting.1 ⟨"猫", some "neko", some "cat", some "N5"⟩).1,
   c2_entry_formatting.2.1 "日",
   c2_entry_formatting.2.2 "犬" "dog" "N5" (by decide)⟩

/-- Claim C4: with the force flag set and a non-empty loaded sequence,
`main` performs exactly one show — the payload rendered from the entry at
cursor 0, the first entry after any shuffle — and terminates: the result is
`MainResult.forced` of that single payload, never the scheduler loop (so the
Waiting state, RunState and the Signal Channel are never consulted) and
never the empty-vocabulary report. -/
theorem c4_force_once :
    ∀ (intervalMinutes : Nat) (e : Entry) (rest : List Entry),
    mainModel true intervalMinutes (e :: rest) = .forced (renderEntry e) ∧
    (∀ c : Config, mainModel true intervalMinutes (e :: rest) ≠ .loop c) ∧
    mainModel true intervalMinutes (e :: rest) ≠ .emptyVocab := by
  intro i e rest
  have h : mainModel true i (e :: rest) = .forced (renderEntry e) := by
    simp [mainModel, entrySel]
  refine ⟨h, fun c hc => ?_, fun hc => ?_⟩ <;> rw [h] at hc <;> cases hc

/-- Claim C5: with an empty loaded vocabulary, `main` reports the condition
and returns before the scheduler exists: the result is
`MainResult.emptyVocab`, never a forced show and never the scheduler loop,
for either value of the force flag — so no notification is shown. -/
theorem c5_empty_vocab :
    ∀ (force : Bool) (intervalMinutes : Nat),
    mainModel force intervalMinutes [] = .emptyVocab ∧
    (∀ p, mainModel force intervalMinutes [] ≠ .forced p) ∧
    (∀ c : Config, mainModel force intervalMinutes [] ≠ .loop c) := by
  intro f i
  have h : mainModel f i [] = .emptyVocab := by simp [mainModel]
  refine ⟨h, fun p hp => ?_, fun c hc => ?_⟩
  · rw [h] at hp; cases hp
  · rw [h] at hc; cases hc

/-- Claim C9: under the non-emptiness precondition enforced by the early
return, every access `entries[idx % entries.len()]` — the expression shared
by the force, signal and normal-show branches via `entrySel` — is in bounds:
the length is non-zero (no modulo by zero), the reduced index is below the
length, and the selection equals an actual element, so it is total and
cannot panic for any cursor value. -/
theorem c9_index_safety :
    ∀ (entries : List Entry) (idx : Nat), entries ≠ [] →
    entries.length ≠ 0 ∧ idx % entries.length < entries.length ∧
    entries[idx % entries.length]? = some (entrySel entries idx) := by
  intro entries idx h
  have hl : 0 < entries.length := List.length_pos.mpr h
  have hm : idx % entries.length < entries.length := Nat.mod_lt _ hl
  refine ⟨by omega, hm, ?_⟩
  rw [List.getElem?_eq_getElem hm]
  unfold entrySel
  rw [List.getD_eq_getElem?_getD, List.getElem?_eq_getElem hm]
  rfl

theorem c9_index_safety_witness :
    ([⟨"日", some "hi", none, none⟩] : List Entry).length ≠ 0 ∧
    7 % ([⟨"日", some "hi", none, none⟩] : List Entry).length <
      ([⟨"日", some "hi", none, none⟩] : List Entry).length ∧
    ([⟨"日", some "hi", none, none⟩] : List Entry)[7 %
        ([⟨"日", some "hi", none, none⟩] : List Entry).length]? =
      some (entrySel [⟨"日", some "hi", none, none⟩] 7) :=
  c9_index_safety [⟨"日", some "hi", none, none⟩] 7 (by decide)

/-- Claim C7: if RunState is false while the scheduler is inside the per-tick
wait, two poll steps suffice to reach the terminal state — the in-flight
1-second sleep is the only remaining delay, so termination happens within
one tick, not the remaining interval.  No field of the observable trace
changes: no further tick is slept, no further notification is emitted (the
show of the current cycle happened atomically before the wait began, so no
Notification Sink call is interrupted) and the cursor keeps its value. -/
theorem c7_cancel_responsive :
    ∀ c : Config, c.phase = .sleeping → c.running = false →
    (iterSched 2 c).phase = .done ∧
    (iterSched 2 c).shows = c.shows ∧
    (iterSched 2 c).ticks = c.ticks ∧
    (iterSched 2 c).idx = c.idx ∧
    (iterSched 2 c).earlyShows = c.earlyShows ∧
    (iterSched 2 c).pending = c.pending := by
  intro c h1 h2
  have hstep : schedStep c = { c with phase := .loopTop } := by
    simp [schedStep, h1, h2]
  have hstep2 : schedStep { c with phase := Phase.loopTop } =
      { c with phase := .done } := by
    simp [schedStep, h2]
  have h2step : iterSched 2 c = { c with phase := .done } := by
    show schedStep (schedStep c) = _
    rw [hstep, hstep2]
  rw [h2step]
  exact ⟨rfl, rfl, rfl, rfl, rfl, rfl⟩

theorem c7_cancel_responsive_witness :
    (iterSched 2 ⟨[⟨"日", some "hi", none, none⟩], 60, 4, .sleeping, 3, 0, false,
      [("日", "hi")], 0, 3⟩).phase = .done ∧
    (iterSched 2 ⟨[⟨"日", some "hi", none, none⟩], 60, 4, .sleeping, 3, 0, false,
      [("日", "hi")], 0, 3⟩).shows = [("日", "hi")] ∧
    (iterSched 2 ⟨[⟨"日", some "hi", none, none⟩], 60, 4, .sleeping, 3, 0, false,
      [("日", "hi")], 0, 3⟩).ticks = 3 ∧
    (iterSched 2 ⟨[⟨"日", some "hi", none, none⟩], 60, 4, .sleeping, 3, 0, false,
      [("日", "hi")], 0, 3⟩).idx = 4 ∧
    (iterSched 2 ⟨[⟨"日", some "hi", none, none⟩], 60, 4, .sleeping, 3, 0, false,
      [("日", "hi")], 0, 3⟩).earlyShows = 0 ∧
    (iterSched 2 ⟨[⟨"日", some "hi", none, none⟩], 60, 4, .sleeping, 3, 0, false,
      [("日", "hi")], 0, 3⟩).pending = 0 :=
  c7_cancel_responsive ⟨[⟨"日", some "hi", none, none⟩], 60, 4, .sleeping, 3, 0,
    false, [("日", "hi")], 0, 3⟩ rfl rfl

/-- Claim C1 (amended): the mpsc Signal Channel is a queue, not a presence
flag — signals do not coalesce.  From the loop top with `n` sends queued
before any `try_recv`, the next `n` scheduler steps each consume one signal
in the early-show branch: `n` early shows occur (one per queued send), the
queue drains to zero, no tick elapses in between, and control is back at the
loop top. -/
theorem c1_signals_queued :
    ∀ (n : Nat) (c : Config), c.phase = .loopTop → c.running = true →
    c.pending = n →
    (iterSched n c).phase = .loopTop ∧
    (iterSched n c).pending = 0 ∧
    (iterSched n c).earlyShows = c.earlyShows + n ∧
    (iterSched n c).shows.length = c.shows.length + n ∧
    (iterSched n c).ticks = c.ticks ∧
    (iterSched n c).running = true := by
  intro n
  induction n with
  | zero =>
    intro c h1 h2 h3
    exact ⟨h1, h3, rfl, rfl, rfl, h2⟩
  | succ n ih =>
    intro c h1 h2 h3
    have hstep : schedStep c =
        { c with pending := c.pending - 1,
                 shows := c.shows ++ [renderEntry (entrySel c.entries c.idx)],
                 earlyShows := c.earlyShows + 1,
                 idx := nextIdx c.idx } := by
      simp [schedStep, h1, h2, h3]
    have hrun : iterSched (n + 1) c = iterSched n (schedStep c) := rfl
    obtain ⟨p1, p2, p3, p4, p5, p6⟩ :=
      ih (schedStep c) (by rw [hstep]; exact h1) (by rw [hstep]; exact h2)
        (by rw [hstep]; simp [h3])
    rw [hrun]
    refine ⟨p1, p2, ?_, ?_, ?_, p6⟩
    · rw [p3, hstep]; simp; omega
    · rw [p4, hstep]; simp; omega
    · rw [p5, hstep]

theorem c1_signals_queued_witness :
    (iterSched 3 ⟨[⟨"日", some "hi", none, none⟩], 60, 0, .loopTop, 0, 3, true,
      [], 0, 0⟩).phase = .loopTop ∧
    (iterSched 3 ⟨[⟨"日", some "hi", none, none⟩], 60, 0, .loopTop, 0, 3, true,
      [], 0, 0⟩).pending = 0 ∧
    (iterSched 3 ⟨[⟨"日", some "hi", none, none⟩], 60, 0, .loopTop, 0, 3, true,
      [], 0, 0⟩).earlyShows = 0 + 3 ∧
    (iterSched 3 ⟨[⟨"日", some "hi", none, none⟩], 60, 0, .loopTop, 0, 3, true,
      [], 0, 0⟩).shows.length = ([] : List (String × String)).length + 3 ∧
    (iterSched 3 ⟨[⟨"日", some "hi", none, none⟩], 60, 0, .loopTop, 0, 3, true,
      [], 0, 0⟩).ticks = 0 ∧
    (iterSched 3 ⟨[⟨"日", some "hi", none, none⟩], 60, 0, .loopTop, 0, 3, true,
      [], 0, 0⟩).running = true :=
  c1_signals_queued 3 ⟨[⟨"日", some "hi", none, none⟩], 60, 0, .loopTop, 0, 3,
    true, [], 0, 0⟩ rfl rfl rfl

/-- Claim C1 as stated is false on the code: with two sends queued before a
single `try_recv` (pending = 2 at the loop top), the scheduler performs two
early shows — one per queued signal — with no tick in between, not exactly
one; a second send before consumption is observably different from a single
send. -/
theorem c1_coalescing_cex :
    (⟨[⟨"日", some "hi", none, none⟩], 60, 0, .loopTop, 0, 2, true, [], 0, 0⟩ :
      Config).pending = 2 ∧
    (iterSched 2 ⟨[⟨"日", some "hi", none, none⟩], 60, 0, .loopTop, 0, 2, true,
      [], 0, 0⟩).earlyShows = 2 ∧
    ¬ (iterSched 2 ⟨[⟨"日", some "hi", none, none⟩], 60, 0, .loopTop, 0, 2, true,
      [], 0, 0⟩).earlyShows = 1 ∧
    (iterSched 2 ⟨[⟨"日", some "hi", none, none⟩], 60, 0, .loopTop, 0, 2, true,
      [], 0, 0⟩).shows.length = 2 ∧
    (iterSched 2 ⟨[⟨"日", some "hi", none, none⟩], 60, 0, .loopTop, 0, 2, true,
      [], 0, 0⟩).ticks = 0 := by
  decide

lemma trimChars_idem (l : List Char) : trimChars (trimChars l) = trimChars l := by
  unfold trimChars
  have h1 : ((l.dropWhile isRustWhitespace).rdropWhile
      isRustWhitespace).dropWhile isRustWhitespace =
      (l.dropWhile isRustWhitespace).rdropWhile isRustWhitespace := by
    rw [List.dropWhile_eq_self_iff]
    intro hl
    obtain ⟨u, hu⟩ :=
      List.rdropWhile_prefix isRustWhitespace (l.dropWhile isRustWhitespace)
    have hne : (l.dropWhile isRustWhitespace).rdropWhile isRustWhitespace ≠ [] := by
      intro h
      rw [h] at hl
      cases hl
    obtain ⟨a, t, ha⟩ := List.exists_cons_of_ne_nil hne
    have hq : ((l.dropWhile isRustWhitespace).rdropWhile
        isRustWhitespace).get? 0 = some a := by
      rw [ha]; rfl
    rw [List.get?_eq_get hl] at hq
    injection hq with hq
    rw [hq]
    have hu2 : a :: (t ++ u) = l.dropWhile isRustWhitespace := by
      rw [← hu, ha]; rfl
    have hl0 : 0 < (l.dropWhile isRustWhitespace).length := by
      rw [← hu2]; simp
    have hna := List.dropWhile_get_zero_not isRustWhitespace l hl0
    have hq2 : (l.dropWhile isRustWhitespace).get? 0 = some a := by
      rw [← hu2]; rfl
    rw [List.get?_eq_get hl0] at hq2
    injection hq2 with hq2
    rw [hq2] at hna
    exact hna
  rw [h1, List.rdropWhile_idempotent]

lemma rustTrim_mk_trimChars (t : List Char) :
    rustTrim (String.mk (trimChars t)) = String.mk (trimChars t) :=
  congrArg String.mk (trimChars_idem t)

lemma string_mk_ne_empty (t : List Char) (h : t ≠ []) : String.mk t ≠ "" := by
  intro he
  exact h (congrArg String.data he)

lemma optField_inv (o : Option (List Char)) (s : String)
    (h : optField o = some s) : s ≠ "" ∧ rustTrim s = s := by
  cases o with
  | none => simp [optField] at h
  | some f =>
    simp only [optField] at h
    by_cases hf : trimChars f = []
    · rw [if_pos hf] at h; cases h
    · rw [if_neg hf] at h
      injection h with h
      subst h
      exact ⟨string_mk_ne_empty _ hf, rustTrim_mk_trimChars f⟩

lemma entryFromParts_some_inv (parts : List (List Char)) (e : Entry)
    (h : entryFromParts parts = some e) :
    e.word ≠ "" ∧
    (∀ s, e.reading = some s → s ≠ "" ∧ rustTrim s = s) ∧
    (∀ s, e.meaning = some s → s ≠ "" ∧ rustTrim s = s) ∧
    (∀ s, e.codes = some s → s ≠ "" ∧ rustTrim s = s) := by
  unfold entryFromParts at h
  by_cases hw : trimChars ((parts.get? 0).getD []) = []
  · rw [if_pos hw] at h; cases h
  · rw [if_neg hw] at h
    injection h with h
    subst h
    refine ⟨string_mk_ne_empty _ hw, ?_, ?_, ?_⟩ <;>
      exact fun s hs => optField_inv _ s hs

lemma parseLineChars_some_inv (l : List Char) (e : Entry)
    (h : parseLineChars l = some e) :
    e.word ≠ "" ∧
    (∀ s, e.reading = some s → s ≠ "" ∧ rustTrim s = s) ∧
    (∀ s, e.meaning = some s → s ≠ "" ∧ rustTrim s = s) ∧
    (∀ s, e.codes = some s → s ≠ "" ∧ rustTrim s = s) := by
  unfold parseLineChars at h
  by_cases h0 : trimChars l = []
  · rw [if_pos h0] at h; cases h
  · rw [if_neg h0] at h
    by_cases h1 : (trimChars l).head? = some '#'
    · rw [if_pos h1] at h; cases h
    · rw [if_neg h1] at h
      exact entryFromParts_some_inv _ e h

lemma parseLineChars_skip (line : List Char)
    (h : trimChars line = [] ∨ (trimChars line).head? = some '#') :
    parseLineChars line = none := by
  unfold parseLineChars
  rcases h with h | h
  · rw [if_pos h]
  · by_cases h0 : trimChars line = []
    · rw [if_pos h0]
    · rw [if_neg h0, if_pos h]

/-- Claim C6: every Entry the vocabulary parser produces has a non-empty
word, and each optional field (`reading`, `meaning`, `codes`) is either
absent or a non-empty string that equals its own trim — never `some ""`.
Blank lines and lines whose first non-whitespace character (the head of the
trimmed line) is a hash are skipped, producing no entry.  Fields are
tab-separated and missing trailing fields come out as `none` rather than
empty, which the absent-or-non-empty invariant certifies. -/
theorem c6_parse_invariants :
    ∀ (text : String) (e : Entry) (line : List Char),
    e ∈ parse_vocab_file (some text) →
    (trimChars line = [] ∨ (trimChars line).head? = some '#') →
    (e.word ≠ "" ∧
     (∀ s, e.reading = some s → s ≠ "" ∧ rustTrim s = s) ∧
     (∀ s, e.meaning = some s → s ≠ "" ∧ rustTrim s = s) ∧
     (∀ s, e.codes = some s → s ≠ "" ∧ rustTrim s = s)) ∧
    parseLineChars line = none := by
  intro text e line hmem hline
  refine ⟨?_, parseLineChars_skip line hline⟩
  unfold parse_vocab_file at hmem
  obtain ⟨l, _, hl⟩ := List.mem_filterMap.mp hmem
  exact parseLineChars_some_inv l e hl

theorem c6_parse_invariants_witness :
    (("a" : String) ≠ "" ∧
     (∀ s, some "b" = some s → s ≠ "" ∧ rustTrim s = s) ∧
     (∀ s, some "c" = some s → s ≠ "" ∧ rustTrim s = s) ∧
     (∀ s, some "d" = some s → s ≠ "" ∧ rustTrim s = s)) ∧
    parseLineChars [' ', '#', 'x'] = none :=
  c6_parse_invariants "a\tb\tc\td" ⟨"a", some "b", some "c", some "d"⟩
    [' ', '#', 'x'] (by decide) (by decide)

lemma get?_take4 (parts : List (List Char)) (i : Nat) (h : i < 4) :
    (parts.take 4).get? i = parts.get? i := by
  simp [List.get?_eq_getElem?, List.getElem?_take_of_lt h]

/-- Claim C10 (amended): at the field-extraction stage — after the line has
been trimmed and split on tabs — only the first four parts can affect the
Entry: `entryFromParts` gives the same result on any parts list and on its
first four parts, so the fifth and later tab-separated fields of the trimmed
line are silently ignored.  (At the raw-line level the claim fails, because
the parser trims the line before splitting: see the counterexample, where
dropping a non-whitespace fifth field changes what the trim removes.) -/
theorem c10_extra_fields :
    ∀ parts : List (List Char),
    entryFromParts parts = entryFromParts (parts.take 4) := by
  intro parts
  unfold entryFromParts
  rw [get?_take4 _ 0 (by omega), get?_take4 _ 1 (by omega),
    get?_take4 _ 2 (by omega), get?_take4 _ 3 (by omega)]

/-- Claim C10 as stated is false on the code at the raw-line level: the line
made of four whitespace-only fields and the fifth field `x` has more than
four tab-separated fields, yet the parser yields the entry with word `x`
for it, while the line truncated to its first four fields (joined back with
tabs) is whitespace-only after trimming and yields nothing — the fifth
field did affect `word`, because trimming precedes splitting. -/
theorem c10_line_truncation_cex :
    (splitChar '\t' (" \t \t \t \tx" : String).data).length = 5 ∧
    List.intercalate ['\t']
      ((splitChar '\t' (" \t \t \t \tx" : String).data).take 4) =
      (" \t \t \t " : String).data ∧
    parseLineChars (" \t \t \t \tx" : String).data =
      some ⟨"x", none, none, none⟩ ∧
    parseLineChars (" \t \t \t " : String).data = none := by
  decide

lemma nextIdx_no_wrap (idx : Nat) (h : idx + 1 < usizeSize) :
    nextIdx idx = idx + 1 :=
  Nat.mod_eq_of_lt h

lemma cursorAfter_no_wrap :
    ∀ (n idx0 : Nat), idx0 + n < usizeSize → cursorAfter idx0 n = idx0 + n := by
  intro n
  induction n with
  | zero => intro idx0 h; rfl
  | succ n ih =>
    intro idx0 h
    show cursorAfter (nextIdx idx0) n = idx0 + (n + 1)
    rw [nextIdx_no_wrap idx0 (by omega), ih (idx0 + 1) (by omega)]
    omega

lemma showsFrom_no_wrap :
    ∀ (n : Nat) (entries : List Entry) (idx0 : Nat), idx0 + n < usizeSize →
    showsFrom entries idx0 n =
      (List.range n).map (fun k => entrySel entries (idx0 + k)) := by
  intro n
  induction n with
  | zero => intro entries idx0 h; rfl
  | succ n ih =>
    intro entries idx0 h
    show entrySel entries idx0 :: showsFrom entries (nextIdx idx0) n = _
    rw [nextIdx_no_wrap idx0 (by omega), ih entries (idx0 + 1) (by omega),
      List.range_succ_eq_map, List.map_cons, List.map_map]
    refine congrArg₂ _ (by rw [Nat.add_zero]) ?_
    apply List.map_congr_left
    intro k _
    show entrySel entries (idx0 + 1 + k) = entrySel entries (idx0 + (k + 1))
    rw [show idx0 + 1 + k = idx0 + (k + 1) from by omega]

lemma map_range_entrySel_rotate (entries : List Entry) (idx0 : Nat)
    (h : entries ≠ []) :
    (List.range entries.length).map (fun k => entrySel entries (idx0 + k)) =
      entries.rotate idx0 := by
  have hl : 0 < entries.length := List.length_pos.mpr h
  apply List.ext_getElem?
  intro k
  by_cases hk : k < entries.length
  · rw [List.getElem?_map, List.getElem?_range hk, List.getElem?_rotate hk,
      Option.map_some']
    have hm : (k + idx0) % entries.length < entries.length := Nat.mod_lt _ hl
    rw [List.getElem?_eq_getElem hm]
    unfold entrySel
    rw [List.getD_eq_getElem?_getD, Nat.add_comm idx0 k,
      List.getElem?_eq_getElem hm]
    rfl
  · rw [List.getElem?_map]
    have h1 : (List.range entries.length)[k]? = none :=
      List.getElem?_eq_none (by simp only [List.length_range]; omega)
    have h2 : (entries.rotate idx0)[k]? = none :=
      List.getElem?_eq_none (by rw [List.length_rotate]; omega)
    rw [h1, h2]
    rfl

/-- Claim C3 (amended): for a non-empty sequence of length N and any
starting cursor that does not overflow `usize` during the N advances
(idx0 + N < 2^64 — always the case in the program, which starts at 0),
N consecutive shows return the cursor, taken modulo N, to its start, and the
entries shown are exactly `entries.rotate idx0`: each of the N entries once,
in sequence order starting from position idx0 % N.  The unqualified claim
over every cursor value fails at the wrap of `wrapping_add`
(see the counterexample). -/
theorem c3_cursor_rotation :
    ∀ (entries : List Entry) (idx0 : Nat), entries ≠ [] →
    idx0 + entries.length < usizeSize →
    cursorAfter idx0 entries.length % entries.length =
      idx0 % entries.length ∧
    showsFrom entries idx0 entries.length = entries.rotate idx0 := by
  intro entries idx0 h1 h2
  constructor
  · rw [cursorAfter_no_wrap _ _ h2, Nat.add_mod_right]
  · rw [showsFrom_no_wrap _ _ _ h2, map_range_entrySel_rotate _ _ h1]

theorem c3_cursor_rotation_witness :
    cursorAfter 5 ([⟨"a", none, none, none⟩, ⟨"b", none, none, none⟩] :
        List Entry).length %
      ([⟨"a", none, none, none⟩, ⟨"b", none, none, none⟩] :
        List Entry).length =
      5 % ([⟨"a", none, none, none⟩, ⟨"b", none, none, none⟩] :
        List Entry).length ∧
    showsFrom [⟨"a", none, none, none⟩, ⟨"b", none, none, none⟩] 5
        ([⟨"a", none, none, none⟩, ⟨"b", none, none, none⟩] :
          List Entry).length =
      ([⟨"a", none, none, none⟩, ⟨"b", none, none, none⟩] :
        List Entry).rotate 5 :=
  c3_cursor_rotation [⟨"a", none, none, none⟩, ⟨"b", none, none, none⟩] 5
    (by decide) (by decide)

/-- Claim C3 as stated is false on the code: the cursor is a `usize` updated
with `wrapping_add(1)`, so for the three-entry sequence and starting cursor
2^64 - 1 the three shows display entry a twice and entry c never (the wrap
restarts selection at entry a), and the final cursor modulo 3 is 2, not the
starting 0. -/
theorem c3_cursor_rotation_cex :
    cursorAfter (usizeSize - 1) 3 % 3 ≠ (usizeSize - 1) % 3 ∧
    (showsFrom [⟨"a", none, none, none⟩, ⟨"b", none, none, none⟩,
        ⟨"c", none, none, none⟩] (usizeSize - 1) 3).count
      ⟨"c", none, none, none⟩ = 0 ∧
    (showsFrom [⟨"a", none, none, none⟩, ⟨"b", none, none, none⟩,
        ⟨"c", none, none, none⟩] (usizeSize - 1) 3).count
      ⟨"a", none, none, none⟩ = 2 := by
  decide

/-- Invariant tying a scheduler state to the initial cursor: the entry list
is unchanged, the cursor equals the initial cursor plus the number of shows
performed (modulo the usize width), and the shows performed so far are
exactly the cursor-order prefix `showsSpec`. -/
def SchedInv (entries : List Entry) (idx0 : Nat) (c : Config) : Prop :=
  c.entries = entries ∧
  c.idx = (idx0 + c.shows.length) % usizeSize ∧
  c.shows = showsSpec entries idx0 c.shows.length

lemma showsSpec_succ (entries : List Entry) (idx0 n : Nat) :
    showsSpec entries idx0 (n + 1) =
      showsSpec entries idx0 n ++
        [renderEntry (entrySel entries ((idx0 + n) % usizeSize))] := by
  simp [showsSpec, List.range_succ]

lemma schedStep_inv (entries : List Entry) (idx0 : Nat) (c : Config)
    (h : SchedInv entries idx0 c) : SchedInv entries idx0 (schedStep c) := by
  obtain ⟨he, hi, hs⟩ := h
  have hshow :
      (c.shows ++ [renderEntry (entrySel c.entries c.idx)]) =
        showsSpec entries idx0
          (c.shows ++ [renderEntry (entrySel c.entries c.idx)]).length ∧
      nextIdx c.idx =
        (idx0 + (c.shows ++
          [renderEntry (entrySel c.entries c.idx)]).length) % usizeSize := by
    have hlen : (c.shows ++ [renderEntry (entrySel c.entries c.idx)]).length =
        c.shows.length + 1 := by simp
    constructor
    · rw [hlen, showsSpec_succ, ← hs, he, hi]
    · rw [hlen]
      unfold nextIdx
      rw [hi, Nat.mod_add_mod, ← Nat.add_assoc]
  cases hph : c.phase with
  | loopTop =>
    simp only [schedStep, hph]
    split_ifs with h1 h2
    · exact ⟨he, hi, hs⟩
    · exact ⟨he, hshow.2, hshow.1⟩
    · exact ⟨he, hshow.2, hshow.1⟩
  | sleeping =>
    simp only [schedStep, hph]
    split_ifs <;> exact ⟨he, hi, hs⟩
  | done =>
    simp only [schedStep, hph]
    exact ⟨he, hi, hs⟩

lemma envStep_inv (entries : List Entry) (idx0 : Nat) (c : Config) (a : Act)
    (h : SchedInv entries idx0 c) : SchedInv entries idx0 (envStep c a) := by
  cases a with
  | sched => exact schedStep_inv entries idx0 c h
  | send => exact ⟨h.1, h.2.1, h.2.2⟩
  | cancel => exact ⟨h.1, h.2.1, h.2.2⟩

lemma schedRun_inv (entries : List Entry) (idx0 : Nat) :
    ∀ (acts : List Act) (c : Config), SchedInv entries idx0 c →
    SchedInv entries idx0 (schedRun c acts) := by
  intro acts
  induction acts with
  | nil => intro c h; exact h
  | cons a acts ih =>
    intro c h
    exact ih (envStep c a) (envStep_inv entries idx0 c a h)

/-- Claim C8: under any interleaving of scheduler steps, tray sends and
cancellation, starting from the loop top at cursor idx0, the k-th
notification shown is always the one rendered from the entry at cursor
idx0 + k (mod 2^64) — so the shown sequence is identical whether or not any
early shows occur — and the cursor always equals idx0 plus the number of
shows performed.  Moreover a pending-signal early show at the loop top
appends exactly the entry at the current cursor (the entry a natural expiry
would have shown) and advances the cursor by exactly one. -/
theorem c8_early_show_order :
    ∀ (entries : List Entry) (interval idx0 : Nat) (acts : List Act)
      (c : Config),
    idx0 < usizeSize →
    c = schedRun (initConfig entries interval idx0) acts →
    c.shows = showsSpec entries idx0 c.shows.length ∧
    c.idx = (idx0 + c.shows.length) % usizeSize ∧
    (c.phase = .loopTop → c.running = true → c.pending > 0 →
      (schedStep c).shows =
        c.shows ++ [renderEntry (entrySel entries c.idx)] ∧
      (schedStep c).idx = nextIdx c.idx ∧
      (schedStep c).earlyShows = c.earlyShows + 1) := by
  intro entries interval idx0 acts c h0 hc
  have hinit : SchedInv entries idx0 (initConfig entries interval idx0) := by
    refine ⟨rfl, ?_, rfl⟩
    show idx0 = (idx0 + 0) % usizeSize
    rw [Nat.add_zero, Nat.mod_eq_of_lt h0]
  have hinv : SchedInv entries idx0 c := by
    rw [hc]
    exact schedRun_inv entries idx0 acts _ hinit
  obtain ⟨he, hi, hs⟩ := hinv
  refine ⟨hs, hi, fun hph hr hp => ?_⟩
  have hstep : schedStep c =
      { c with pending := c.pending - 1,
               shows := c.shows ++ [renderEntry (entrySel c.entries c.idx)],
               earlyShows := c.earlyShows + 1,
               idx := nextIdx c.idx } := by
    simp [schedStep, hph, hr, hp]
  exact ⟨by rw [hstep, he], by rw [hstep], by rw [hstep]⟩

theorem c8_early_show_order_witness :
    (schedRun (initConfig [⟨"日", some "hi", none, none⟩] 60 0)
        [Act.send, Act.sched, Act.sched]).shows =
      showsSpec [⟨"日", some "hi", none, none⟩] 0
        (schedRun (initConfig [⟨"日", some "hi", none, none⟩] 60 0)
          [Act.send, Act.sched, Act.sched]).shows.length ∧
    (schedRun (initConfig [⟨"日", some "hi", none, none⟩] 60 0)
        [Act.send, Act.sched, Act.sched]).idx =
      (0 + (schedRun (initConfig [⟨"日", some "hi", none, none⟩] 60 0)
        [Act.send, Act.sched, Act.sched]).shows.length) % usizeSize ∧
    ((schedRun (initConfig [⟨"日", some "hi", none, none⟩] 60 0)
        [Act.send, Act.sched, Act.sched]).phase = .loopTop →
      (schedRun (initConfig [⟨"日", some "hi", none, none⟩] 60 0)
        [Act.send, Act.sched, Act.sched]).running = true →
      (schedRun (initConfig [⟨"日", some "hi", none, none⟩] 60 0)
        [Act.send, Act.sched, Act.sched]).pending > 0 →
      (schedStep (schedRun (initConfig [⟨"日", some "hi", none, none⟩] 60 0)
          [Act.send, Act.sched, Act.sched])).shows =
        (schedRun (initConfig [⟨"日", some "hi", none, none⟩] 60 0)
          [Act.send, Act.sched, Act.sched]).shows ++
          [renderEntry (entrySel [⟨"日", some "hi", none, none⟩]
            (schedRun (initConfig [⟨"日", some "hi", none, none⟩] 60 0)
              [Act.send, Act.sched, Act.sched]).idx)] ∧
      (schedStep (schedRun (initConfig [⟨"日", some "hi", none, none⟩] 60 0)
          [Act.send, Act.sched, Act.sched])).idx =
        nextIdx (schedRun (initConfig [⟨"日", some "hi", none, none⟩] 60 0)
          [Act.send, Act.sched, Act.sched]).idx ∧
      (schedStep (schedRun (initConfig [⟨"日", some "hi", none, none⟩] 60 0)
          [Act.send, Act.sched, Act.sched])).earlyShows =
        (schedRun (initConfig [⟨"日", some "hi", none, none⟩] 60 0)
          [Act.send, Act.sched, Act.sched]).earlyShows + 1) :=
  c8_early_show_order [⟨"日", some "hi", none, none⟩] 60 0
    [Act.send, Act.sched, Act.sched] _ (by decide) rfl
